import Mathlib

/-!
Verification of the pysheng page/image resolution pipeline
(`pysheng/download.py`) against its natural-language specification.

The development shallowly embeds the pure algorithmic core of the module:

* `get_id_from_string`  (identifier resolver, lines 39-48)
* `get_cover_url`, `get_page_url` (URL builders, lines 51-54, 114-115)
* `getInfo` = `get_info`  (metadata extractor, lines 62-99)
* `get_image_url_from_page` (page resolver, lines 102-111)
* `download_book` (pipeline driver, lines 129-145)

Conventions of the embedding:

* Python exceptions become the `PyError` sum: `ParsingError` is
  `PyError.parsingError`; a failure raised by `json.loads` itself is
  `PyError.valueError` (the module never catches it); dictionary and
  type failures are `keyError` / `typeError`.
* The network fetch (`lib.download`) is an external collaborator per the
  specification and is passed in as a pure function `fetch : String → String`;
  the driver additionally records the list of URLs it fetches so that
  "performs no further fetch" statements are expressible.
* `json.loads` is likewise external (Python standard library); `getInfo`
  takes the parse function as a parameter `parse : String → String →
  Except String JsonVal` (encoding, text).  `jsonParseSimple` below is a
  concrete executable instantiation used by the witnesses; it agrees with
  a standard JSON reader on every fixture appearing in this file.
* Each regular expression of the source is modelled by a dedicated
  scanning function with Python `re.search` leftmost-match semantics,
  including the fact that `.` does not match a newline.
* Byte-level text decoding (`raw_unicode_escape`, `string-escape`,
  HTML entity unescaping) is modelled character-wise; no claim in this
  development depends on the decoded bytes themselves.
* The Python dict key `"prefix"` is rendered as the field name `pref`.
-/

/-! ## Basic character and list utilities -/

/-- The apostrophe character (codepoint 39). -/
def quoteC : Char := Char.ofNat 39

/-- Opening curly brace character (codepoint 123). -/
def obrC : Char := Char.ofNat 123

/-- Closing curly brace character (codepoint 125). -/
def cbrC : Char := Char.ofNat 125

/-- Python regular-expression whitespace class: space, tab, newline,
carriage return, form feed, vertical tab. -/
def pyIsSpace (c : Char) : Bool :=
  c = ' ' || c = '\t' || c = '\n' || c = '\r' || c = Char.ofNat 12 || c = Char.ofNat 11

/-- ASCII lower-casing of one character, modelling Python `str.lower`
on the ASCII encoding names that occur in the data. -/
def lowerChar (c : Char) : Char :=
  if 'A' ≤ c && c ≤ 'Z' then Char.ofNat (c.toNat + 32) else c

/-- ASCII lower-casing of a string. -/
def lowerStr (s : String) : String :=
  String.mk (s.data.map lowerChar)

/-- Substring containment on character lists, modelling the Python
`needle in haystack` test on strings. -/
def containsSub (needle : List Char) : List Char → Bool
  | [] => needle.isEmpty
  | c :: cs => needle.isPrefixOf (c :: cs) || containsSub needle cs

/-- Split a character list at each occurrence of a separator character,
modelling Python `str.split(sep)` for a one-character separator. -/
def splitOnC (sep : Char) : List Char → List (List Char)
  | [] => [[]]
  | c :: cs =>
    if c = sep then [] :: splitOnC sep cs
    else
      match splitOnC sep cs with
      | [] => [[c]]
      | g :: gs => (c :: g) :: gs

/-- Decimal digits to a natural number. -/
def digitsToNat (ds : List Char) : Nat :=
  ds.foldl (fun a c => a * 10 + (c.toNat - 48)) 0

/-! ## Error and data model -/

/-- Python exceptions observable from the module.  `parsingError` is the
module's own `ParsingError`; the other constructors model exceptions of
the Python runtime and standard library that the module does not catch. -/
inductive PyError where
  | parsingError (msg : String)
  | valueError (msg : String)
  | keyError (key : String)
  | typeError (msg : String)
deriving DecidableEq, Repr

/-- Structured-data (JSON) values as produced by `json.loads`.
Numbers are modelled as integers; every numeric field read by the module
is integral in the document format. -/
inductive JsonVal where
  | null
  | bool (b : Bool)
  | num (n : Int)
  | str (s : String)
  | arr (elems : List JsonVal)
  | obj (fields : List (String × JsonVal))

/-- The dictionary returned by `get_info` (`DocumentMetadata` of the
specification).  The Python key `"prefix"` is the field `pref`. -/
structure BookInfo where
  pref : String
  page_ids : List String
  title : String
  attribution : String
  max_resolution : Int × Int
deriving DecidableEq, Repr

/-! ## JSON value access, modelling Python dictionary/iteration behavior -/

/-- Python `key in v` membership test.  For a dict it tests key presence,
for a list it tests element membership, for a string substring containment;
other operands raise `TypeError`. -/
def jsonMember (key : String) : JsonVal → Except PyError Bool
  | .obj fs => .ok (fs.lookup key).isSome
  | .arr es => .ok (es.any (fun e => match e with | .str s => s = key | _ => false))
  | .str s => .ok (containsSub key.data s.data)
  | _ => .error (.typeError "argument is not iterable")

/-- Python `v[key]` subscript for a string key: dict lookup, `KeyError`
when the key is missing, `TypeError` on non-dict operands. -/
def jsonIndex (v : JsonVal) (key : String) : Except PyError JsonVal :=
  match v with
  | .obj fs =>
    match fs.lookup key with
    | some x => .ok x
    | none => .error (.keyError key)
  | _ => .error (.typeError "indices must be integers")

/-- `v[key]` expected to produce a string value. -/
def jsonIndexStr (v : JsonVal) (key : String) : Except PyError String :=
  match jsonIndex v key with
  | .error e => .error e
  | .ok (.str s) => .ok s
  | .ok _ => .error (.typeError "expected a string value")

/-- `v[key]` expected to produce a numeric value. -/
def jsonIndexNum (v : JsonVal) (key : String) : Except PyError Int :=
  match jsonIndex v key with
  | .error e => .error e
  | .ok (.num n) => .ok n
  | .ok _ => .error (.typeError "expected a numeric value")

/-! ## Text decoding helpers -/

/-- Hexadecimal digit value. -/
def hexVal (c : Char) : Option Nat :=
  if '0' ≤ c && c ≤ '9' then some (c.toNat - 48)
  else if 'a' ≤ c && c ≤ 'f' then some (c.toNat - 87)
  else if 'A' ≤ c && c ≤ 'F' then some (c.toNat - 55)
  else none

/-- Python `"raw_unicode_escape"` decoding: only `\uXXXX` sequences are
interpreted, every other character passes through unchanged. -/
def decodeRUE : List Char → List Char
  | [] => []
  | '\\' :: 'u' :: a :: b :: c :: d :: rest =>
    match hexVal a, hexVal b, hexVal c, hexVal d with
    | some ha, some hb, some hc, some hd =>
      Char.ofNat (((ha * 16 + hb) * 16 + hc) * 16 + hd) :: decodeRUE rest
    | _, _, _, _ => '\\' :: 'u' :: decodeRUE (a :: b :: c :: d :: rest)
  | c :: cs => c :: decodeRUE cs

/-- `"raw_unicode_escape"` decoding on strings (used on the `prefix`
field, `download.py` line 89). -/
def decodeRUEStr (s : String) : String := String.mk (decodeRUE s.data)

/-- One-character escape table of Python `"string-escape"` decoding
(the cases exercised by image URLs; an unrecognized escape keeps the
backslash). -/
def escMap (c : Char) : Option Char :=
  if c = 'n' then some '\n'
  else if c = 't' then some '\t'
  else if c = 'r' then some '\r'
  else if c = '\\' then some '\\'
  else if c = quoteC then some quoteC
  else if c = '"' then some '"'
  else none

/-- Python `"string-escape"` decoding (applied to the extracted image
URL, `download.py` line 111). -/
def decodeSE : List Char → List Char
  | [] => []
  | '\\' :: c :: rest =>
    match escMap c with
    | some d => d :: decodeSE rest
    | none => '\\' :: c :: decodeSE rest
  | c :: cs => c :: decodeSE cs

/-- HTML entity unescaping (`HTMLParser.unescape`, `download.py`
lines 57-59) for the named entities occurring in document titles;
other text passes through.  No claim depends on the entity table. -/
def unescapeEntities (s : String) : String := String.mk (unescapeChars s.data)
where
  unescapeChars : List Char → List Char
  | [] => []
  | '&' :: 'a' :: 'm' :: 'p' :: ';' :: rest => '&' :: unescapeChars rest
  | '&' :: 'l' :: 't' :: ';' :: rest => '<' :: unescapeChars rest
  | '&' :: 'g' :: 't' :: ';' :: rest => '>' :: unescapeChars rest
  | '&' :: 'q' :: 'u' :: 'o' :: 't' :: ';' :: rest => '"' :: unescapeChars rest
  | c :: cs => c :: unescapeChars cs

/-- `re.sub("^By\\s+", "", s)` (`download.py` line 96): strip one
leading literal `By` followed by a maximal nonempty whitespace run. -/
def stripByLabel (s : String) : String :=
  match s.data with
  | 'B' :: 'y' :: c :: cs =>
    if pyIsSpace c then String.mk ((c :: cs).dropWhile pyIsSpace) else s
  | _ => s

/-! ## Regular-expression models

Each `re.search` of the source is modelled by a dedicated scanner with
leftmost-match semantics. -/

/-- `re.search("[?&]?id=([^&]+)", url)` (`download.py` line 44): the
captured group of the leftmost match, i.e. the maximal nonempty run of
non-`&` characters following the first occurrence of `id=` that is
followed by at least one non-`&` character.  The optional `[?&]?` never
affects the captured group. -/
def findIdValue : List Char → Option (List Char)
  | [] => none
  | c :: cs =>
    if ('i' :: 'd' :: '=' :: []).isPrefixOf (c :: cs) then
      if (((c :: cs).drop 3).takeWhile (fun d => d ≠ '&')).isEmpty then findIdValue cs
      else some (((c :: cs).drop 3).takeWhile (fun d => d ≠ '&'))
    else findIdValue cs

/-- Whether some occurrence of `id=` is followed by at least one
non-`&` character (the success condition of the `id=` search). -/
def hasIdAssign : List Char → Bool
  | [] => false
  | c :: cs =>
    (('i' :: 'd' :: '=' :: []).isPrefixOf (c :: cs)
      && !(((c :: cs).drop 3).takeWhile (fun d => d ≠ '&')).isEmpty)
    || hasIdAssign cs

/-- Stated from the specification, for comparison with the code: a URL
contains a query parameter named `id` when `id=` appears introduced by
`?` or `&`. -/
def specHasIdQueryParam (s : String) : Bool :=
  containsSub ('?' :: 'i' :: 'd' :: '=' :: []) s.data
  || containsSub ('&' :: 'i' :: 'd' :: '=' :: []) s.data

/-- `name="?ie` — the tail of the `ie` input-tag pattern: literal
`name=`, an optional double quote, then literal `ie` (the trailing
optional quote of the source pattern can always match the empty
string and is dropped). -/
def nameIeHere (l : List Char) : Bool :=
  ('n' :: 'a' :: 'm' :: 'e' :: '=' :: '"' :: 'i' :: 'e' :: []).isPrefixOf l
  || ('n' :: 'a' :: 'm' :: 'e' :: '=' :: 'i' :: 'e' :: []).isPrefixOf l

/-- Scan the characters following `input` for `[^>]*\s+name="?ie"?`:
succeed at a position where the previous character is whitespace and
`name="?ie` matches, fail past a `>`. -/
def ieAfterScan : Bool → List Char → Bool
  | _, [] => false
  | prevWs, c :: cs =>
    (prevWs && nameIeHere (c :: cs)) || (c ≠ '>' && ieAfterScan (pyIsSpace c) cs)

/-- `re.search('input[^>]*\s+name="?ie"?', seg)` on one `<`-segment
(`download.py` lines 66-67). -/
def segMatchIe : List Char → Bool
  | [] => false
  | c :: cs =>
    (('i' :: 'n' :: 'p' :: 'u' :: 't' :: []).isPrefixOf (c :: cs)
      && ieAfterScan false ((c :: cs).drop 5))
    || segMatchIe cs

/-- Modelled from the spec: `lib.first` lives in the repository file
`lib.py`, which is absent from `src/`; per the specification's "scan
the raw HTML for an input-field declaration" it returns the first
element of an iterable, or `None` when the iterable is empty. -/
def lib_first {α : Type} (l : List α) : Option α := l.head?

/-- `lib.first(s for s in cover_html.split("<") if re.search(...))`
(`download.py` lines 66-67): the first `<`-segment of the HTML matching
the `ie` input-tag pattern. -/
def findIeTag (html : String) : Option (List Char) :=
  lib_first ((splitOnC '<' html.data).filter segMatchIe)

/-- `re.search('value="(.*?)"', tag)` (`download.py` line 69): the
captured group of the leftmost match — the text between the first
`value="` whose closing quote occurs with no intervening newline
(`.` does not match a newline) and that quote. -/
def valueCapture : List Char → Option (List Char)
  | [] => none
  | c :: cs =>
    if ('v' :: 'a' :: 'l' :: 'u' :: 'e' :: '=' :: '"' :: []).isPrefixOf (c :: cs) then
      let after := (c :: cs).drop 7
      let cap := after.takeWhile (fun d => d ≠ '"' && d ≠ '\n')
      match after.drop cap.length with
      | '"' :: _ => some cap
      | _ => valueCapture cs
    else valueCapture cs

/-- Argument scan of `_OC_Run\((.*?)\);`: accumulate characters until
the first `);`, failing at a newline (`.` does not match a newline). -/
def ocScanArgs (acc : List Char) : List Char → Option (List Char)
  | [] => none
  | c :: cs =>
    if c = ')' && cs.head? = some ';' then some acc.reverse
    else if c = '\n' then none
    else ocScanArgs (c :: acc) cs

/-- Attempt the `_OC_Run\((.*?)\);` pattern at the head of the list. -/
def ocTryAt (l : List Char) : Option (List Char) :=
  if ('_' :: 'O' :: 'C' :: '_' :: 'R' :: 'u' :: 'n' :: '(' :: []).isPrefixOf l then
    ocScanArgs [] (l.drop 8)
  else none

/-- `re.search(r'_OC_Run\((.*?)\);', cover_html)` (`download.py`
line 75): captured group of the leftmost match. -/
def findOcRun : List Char → Option (List Char)
  | [] => none
  | c :: cs =>
    match ocTryAt (c :: cs) with
    | some r => some r
    | none => findOcRun cs

/-- Attempt `preloadImg.src = '([^']*?)'` at the head of the list:
literal `preloadImg`, one arbitrary non-newline character (the
unescaped `.`), literal `src = '`, then the capture up to the next
apostrophe, which must exist. -/
def preloadTryAt (l : List Char) : Option (List Char) :=
  if ('p' :: 'r' :: 'e' :: 'l' :: 'o' :: 'a' :: 'd' :: 'I' :: 'm' :: 'g' :: []).isPrefixOf l then
    match l.drop 10 with
    | c :: rest =>
      if c ≠ '\n'
          && ('s' :: 'r' :: 'c' :: ' ' :: '=' :: ' ' :: quoteC :: []).isPrefixOf rest then
        let after := rest.drop 7
        let cap := after.takeWhile (fun d => d ≠ quoteC)
        match after.drop cap.length with
        | q :: _ => if q = quoteC then some cap else none
        | [] => none
      else none
    | [] => none
  else none

/-- `re.search(r"preloadImg.src = '([^']*?)'", html)` (`download.py`
line 107): captured group of the leftmost match. -/
def findPreload : List Char → Option (List Char)
  | [] => none
  | c :: cs =>
    match preloadTryAt (c :: cs) with
    | some r => some r
    | none => findPreload cs

/-- `re.sub("w=(\d+)", "w=" + str(width), url)` (`download.py`
line 143): replace every occurrence of `w=` followed by a nonempty
digit run by `w=` followed by the decimal rendering of `width`.
The Boolean is true while the digit run of a replaced match is being
consumed.  A failed 3-character match `w=` + non-digit resumes the
scan after the `=`, which cannot start a match. -/
def reSubWGo (wstr : List Char) : Bool → List Char → List Char
  | _, [] => []
  | _, 'w' :: '=' :: d :: ds =>
    if d.isDigit then 'w' :: '=' :: (wstr ++ reSubWGo wstr true ds)
    else 'w' :: '=' :: reSubWGo wstr false (d :: ds)
  | skipping, c :: cs =>
    if skipping && c.isDigit then reSubWGo wstr true cs
    else c :: reSubWGo wstr false cs

/-- Width rewriting of an image URL (`download.py` lines 142-143). -/
def reSubWidth (width : Int) (url : String) : String :=
  String.mk (reSubWGo (toString width).data false url.data)

/-! ## The embedded source functions -/

/-- `get_id_from_string` (`download.py` lines 39-48): return a book ID
from a string that can be a book code or URL. -/
def get_id_from_string (s : String) : Except PyError String :=
  if !s.data.contains '/' then .ok s
  else
    match findIdValue s.data with
    | none => .error (.parsingError ("Error extracting id query string from URL: " ++ s))
    | some cap => .ok (String.mk cap)

/-- `get_cover_url` (`download.py` lines 51-54). -/
def get_cover_url (book_id : String) : String :=
  "http://books.google.com/books?id=" ++ book_id
    ++ "&hl=en&printsec=frontcover&source=gbs_ge_summary_r&cad=0"

/-- `get_page_url` (`download.py` lines 114-115). -/
def get_page_url (pre page_id : String) : String :=
  pre ++ "&pg=" ++ page_id

/-- Encoding determination of `get_info` (`download.py` lines 66-74):
the lower-cased `value` attribute of the first `<`-segment matching the
`ie` input-tag pattern, `ParsingError` when the matching segment has no
`value="..."`, and the fixed default `iso8859-15` when no segment
matches. -/
def encodingOf (cover_html : String) : Except PyError String :=
  match findIeTag cover_html with
  | some tag =>
    match valueCapture tag with
    | none => .error (.parsingError "Cannot find encoding info")
    | some cap => .ok (lowerStr (String.mk cap))
  | none => .ok "iso8859-15"

/-- `sorted(pages_info["page"], key=lambda d: d["order"])`
(`download.py` lines 85-86): Python `sorted` is a stable sort on the
precomputed keys, modelled by Mathlib insertion sort on the key. -/
def pyKeySorted (l : List (Int × JsonVal)) : List (Int × JsonVal) :=
  List.insertionSort (fun a b => a.1 ≤ b.1) l

/-- Key extraction `d["order"]` performed by `sorted` on each entry. -/
def keyOfEntry (e : JsonVal) : Except PyError (Int × JsonVal) :=
  match jsonIndex e "order" with
  | .error er => .error er
  | .ok (.num n) => .ok (n, e)
  | .ok _ => .error (.typeError "order is not comparable")

/-- Projection `x["pid"]` performed after sorting. -/
def pidOfEntry (p : Int × JsonVal) : Except PyError String :=
  jsonIndexStr p.2 "pid"

/-- Tail of `get_info` (`download.py` lines 89-99): prefix decoding,
resolution fields, entity-decoded title and attribution, in the
evaluation order of the source. -/
def getInfoTail (pages_info book_info : JsonVal) (page_ids : List String) :
    Except PyError BookInfo :=
  match jsonIndexStr pages_info "prefix" with
  | .error e => .error e
  | .ok prefV =>
    match jsonIndexNum book_info "max_resolution_image_width" with
    | .error e => .error e
    | .ok mw =>
      match jsonIndexNum book_info "max_resolution_image_height" with
      | .error e => .error e
      | .ok mh =>
        match jsonIndexStr book_info "title" with
        | .error e => .error e
        | .ok titleV =>
          match jsonIndexStr book_info "attribution" with
          | .error e => .error e
          | .ok attrV =>
            .ok { pref := decodeRUEStr prefV
                  page_ids := page_ids
                  title := unescapeEntities titleV
                  attribution := unescapeEntities (stripByLabel attrV)
                  max_resolution := (mw, mh) }

/-- Page-list extraction of `get_info` (`download.py` lines 85-88):
sort the entries by their `order` key, project `pid`, and fail with
`ParsingError` when the projection is empty. -/
def getInfoPages (pages_info book_info : JsonVal) (entries : List JsonVal) :
    Except PyError BookInfo :=
  match entries.mapM keyOfEntry with
  | .error e => .error e
  | .ok keyed =>
    match (pyKeySorted keyed).mapM pidOfEntry with
    | .error e => .error e
    | .ok page_ids =>
      if page_ids.isEmpty then .error (.parsingError "No page_ids found")
      else getInfoTail pages_info book_info page_ids

/-- Middle of `get_info` (`download.py` lines 83-86): presence check of
the `page` collection. -/
def getInfoCont (pages_info book_info : JsonVal) : Except PyError BookInfo :=
  match jsonMember "page" pages_info with
  | .error e => .error e
  | .ok false => .error (.parsingError "Cannot find page info")
  | .ok true =>
    match jsonIndex pages_info "page" with
    | .error e => .error e
    | .ok (.arr entries) => getInfoPages pages_info book_info entries
    | .ok _ => .error (.typeError "page collection is not a list")

/-- `get_info` (`download.py` lines 62-99).  `parse` is the injected
`json.loads` collaborator, receiving the determined encoding and the
bracketed argument text; an error it returns propagates as a
`ValueError`, exactly as the uncaught `json.loads` failure does in the
source. -/
def getInfo (parse : String → String → Except String JsonVal) (cover_html : String) :
    Except PyError BookInfo :=
  match encodingOf cover_html with
  | .error e => .error e
  | .ok enc =>
    match findOcRun cover_html.data with
    | none => .error (.parsingError "No JS function OC_Run() found in HTML")
    | some args =>
      match parse enc ("[" ++ String.mk args ++ "]") with
      | .error e => .error (.valueError e)
      | .ok (.arr (pages_info :: book_info :: _)) => getInfoCont pages_info book_info
      | .ok (.arr _) =>
        .error (.parsingError "Expecting at least 2 arguments in function: OC_Run()")
      | .ok _ => .error (.typeError "top-level structured data is not an array")

/-- The restricted-content marker substring (`download.py` line 104). -/
def restrictedMarker : String := "/googlebooks/restricted_logo.gif"

/-- `get_image_url_from_page` (`download.py` lines 102-111): `none` on
a restricted page, the string-escape-decoded captured URL otherwise,
`ParsingError` when neither is found. -/
def get_image_url_from_page (html : String) : Except PyError (Option String) :=
  if containsSub restrictedMarker.data html.data then .ok none
  else
    match findPreload html.data with
    | none => .error (.parsingError "No image found in HTML page")
    | some cap => .ok (some (String.mk (decodeSE cap)))

/-- `itertools.islice(seq, start, stop)` on a list: the elements with
indices in the half-open range, `stop = none` meaning to the end. -/
def islice (l : List α) (start : Nat) (stop : Option Nat) : List α :=
  match stop with
  | none => l.drop start
  | some e => (l.take e).drop start

/-- The page loop of `download_book` (`download.py` lines 136-145).
Returns the yielded `(page, image_data)` pairs together with the list
of URLs fetched, in fetch order.  A page whose resolved image URL is
`None` or empty (Python falsity of `image_url0`) yields nothing and
causes no image fetch. -/
def processPages (fetch : String → String) (info : BookInfo) :
    Nat → List String → Except PyError (List (Nat × String) × List String)
  | _, [] => .ok ([], [])
  | page, pid :: rest =>
    let page_url := get_page_url info.pref pid
    match get_image_url_from_page (fetch page_url) with
    | .error e => .error e
    | .ok none =>
      match processPages fetch info (page + 1) rest with
      | .error e => .error e
      | .ok (ys, log) => .ok (ys, page_url :: log)
    | .ok (some u) =>
      if u = "" then
        match processPages fetch info (page + 1) rest with
        | .error e => .error e
        | .ok (ys, log) => .ok (ys, page_url :: log)
      else
        let image_url := reSubWidth info.max_resolution.1 u
        let image_data := fetch image_url
        match processPages fetch info (page + 1) rest with
        | .error e => .error e
        | .ok (ys, log) => .ok ((page, image_data) :: ys, page_url :: image_url :: log)

/-- Per-page summary of the loop body of `download_book`: the element
the driver yields for the page with absolute index `ipid.1` and page
identifier `ipid.2`, or `none` when the page is skipped. -/
def pageStep (fetch : String → String) (w : Int) (pre : String) (ipid : Nat × String) :
    Option (Nat × String) :=
  match get_image_url_from_page (fetch (get_page_url pre ipid.2)) with
  | .ok (some u) => if u = "" then none else some (ipid.1, fetch (reSubWidth w u))
  | _ => none

/-- `download_book` (`download.py` lines 129-145): resolve the
identifier, fetch and parse the cover, then run the page loop over the
sliced page identifiers.  The result carries the metadata, the yielded
pairs and the full fetch log (cover first). -/
def download_book (fetch : String → String) (parse : String → String → Except String JsonVal)
    (url : String) (page_start : Nat) (page_end : Option Nat) :
    Except PyError (BookInfo × List (Nat × String) × List String) :=
  match get_id_from_string url with
  | .error e => .error e
  | .ok book_id =>
    let cover_url := get_cover_url book_id
    match getInfo parse (fetch cover_url) with
    | .error e => .error e
    | .ok info =>
      match processPages fetch info page_start (islice info.page_ids page_start page_end) with
      | .error e => .error e
      | .ok (ys, log) => .ok (info, ys, cover_url :: log)

/-! ## A concrete structured-data reader

`jsonParseSimple` is an executable JSON reader used to instantiate the
`parse` collaborator in witnesses and counterexamples.  It covers the
JSON fragment appearing in the document format (objects, arrays,
escape-free strings, integers, booleans, null) and rejects everything
else; on every input appearing in this file its verdict coincides with
that of a standard JSON reader. -/

/-- JSON insignificant whitespace. -/
def jsonSkipWs (l : List Char) : List Char :=
  l.dropWhile (fun c => c = ' ' || c = '\t' || c = '\n' || c = '\r')

/-- Read a JSON string literal without escapes. -/
def parseJstr : List Char → Option (String × List Char)
  | [] => none
  | c :: cs =>
    if c = '"' then
      let cap := cs.takeWhile (fun d => d ≠ '"' && d ≠ '\\')
      match cs.drop cap.length with
      | d :: rest => if d = '"' then some (String.mk cap, rest) else none
      | [] => none
    else none

/-- Read a JSON integer literal. -/
def parseJnum : List Char → Option (Int × List Char)
  | '-' :: cs =>
    let ds := cs.takeWhile Char.isDigit
    if ds.isEmpty then none else some (-(digitsToNat ds : Int), cs.drop ds.length)
  | cs =>
    let ds := cs.takeWhile Char.isDigit
    if ds.isEmpty then none else some ((digitsToNat ds : Int), cs.drop ds.length)

mutual

/-- Read one JSON value. -/
def parseJv : Nat → List Char → Except String (JsonVal × List Char)
  | 0, _ => .error "json depth"
  | Nat.succ fuel, l =>
    match jsonSkipWs l with
    | [] => .error "json syntax"
    | c :: cs =>
      if c = '"' then
        match parseJstr (c :: cs) with
        | some (s, rest) => .ok (.str s, rest)
        | none => .error "json syntax"
      else if c = '[' then parseJarr fuel cs true
      else if c = obrC then parseJobj fuel cs true
      else if c = '-' || c.isDigit then
        match parseJnum (c :: cs) with
        | some (n, rest) => .ok (.num n, rest)
        | none => .error "json syntax"
      else if ('t' :: 'r' :: 'u' :: 'e' :: []).isPrefixOf (c :: cs) then
        .ok (.bool true, (c :: cs).drop 4)
      else if ('f' :: 'a' :: 'l' :: 's' :: 'e' :: []).isPrefixOf (c :: cs) then
        .ok (.bool false, (c :: cs).drop 5)
      else if ('n' :: 'u' :: 'l' :: 'l' :: []).isPrefixOf (c :: cs) then
        .ok (.null, (c :: cs).drop 4)
      else .error "json syntax"

/-- Read the elements of a JSON array after the opening bracket. -/
def parseJarr : Nat → List Char → Bool → Except String (JsonVal × List Char)
  | 0, _, _ => .error "json depth"
  | Nat.succ fuel, l, isFirst =>
    match jsonSkipWs l with
    | [] => .error "json syntax"
    | c :: cs =>
      if c = ']' && isFirst then .ok (.arr [], cs)
      else
        match parseJv fuel (c :: cs) with
        | .error e => .error e
        | .ok (v, rest) =>
          match jsonSkipWs rest with
          | ']' :: rest2 => .ok (.arr [v], rest2)
          | ',' :: rest2 =>
            match parseJarr fuel rest2 false with
            | .ok (.arr vs, rest3) => .ok (.arr (v :: vs), rest3)
            | .ok _ => .error "json syntax"
            | .error e => .error e
          | _ => .error "json syntax"

/-- Read the members of a JSON object after the opening brace. -/
def parseJobj : Nat → List Char → Bool → Except String (JsonVal × List Char)
  | 0, _, _ => .error "json depth"
  | Nat.succ fuel, l, isFirst =>
    match jsonSkipWs l with
    | [] => .error "json syntax"
    | c :: cs =>
      if c = cbrC && isFirst then .ok (.obj [], cs)
      else
        match parseJstr (c :: cs) with
        | none => .error "json syntax"
        | some (k, rest) =>
          match jsonSkipWs rest with
          | ':' :: rest2 =>
            match parseJv fuel rest2 with
            | .error e => .error e
            | .ok (v, rest3) =>
              match jsonSkipWs rest3 with
              | r :: rest4 =>
                if r = cbrC then .ok (.obj [(k, v)], rest4)
                else if r = ',' then
                  match parseJobj fuel rest4 false with
                  | .ok (.obj kvs, rest5) => .ok (.obj ((k, v) :: kvs), rest5)
                  | .ok _ => .error "json syntax"
                  | .error e => .error e
                else .error "json syntax"
              | [] => .error "json syntax"
          | _ => .error "json syntax"

end

/-- The concrete `json.loads` instantiation: parse one value and
require only trailing whitespace.  The encoding argument is accepted
and, the character data being already abstract text, not used. -/
def jsonParseSimple (_enc : String) (txt : String) : Except String JsonVal :=
  match parseJv (txt.data.length * 2 + 2) txt.data with
  | .error e => .error e
  | .ok (v, rest) => if (jsonSkipWs rest).isEmpty then .ok v else .error "json syntax"

/-! ## Concrete fixtures used by witnesses and counterexamples -/

/-- Cover HTML whose three page entries carry order fields 2, 0, 1 and
pid fields p2, p0, p1 (specification section 8, sort-by-order fixture). -/
def fixtureC3 : String :=
  "_OC_Run(\x7b\"page\":[\x7b\"pid\":\"p2\",\"order\":2\x7d,\x7b\"pid\":\"p0\",\"order\":0\x7d,\x7b\"pid\":\"p1\",\"order\":1\x7d],\"prefix\":\"P\"\x7d,\x7b\"title\":\"T\",\"attribution\":\"By A\",\"max_resolution_image_width\":1280,\"max_resolution_image_height\":1889\x7d);"

/-- Cover HTML of a two-page document whose second page is restricted. -/
def coverC1 : String :=
  "_OC_Run(\x7b\"page\":[\x7b\"pid\":\"PA1\",\"order\":0\x7d,\x7b\"pid\":\"PA2\",\"order\":1\x7d],\"prefix\":\"http://books.google.com/books?id=BOOKID\"\x7d,\x7b\"title\":\"T\",\"attribution\":\"By A\",\"max_resolution_image_width\":1280,\"max_resolution_image_height\":1889\x7d);"

/-- The metadata extracted from `coverC1`. -/
def infoC1 : BookInfo :=
  ⟨"http://books.google.com/books?id=BOOKID", ["PA1", "PA2"], "T", "A", (1280, 1889)⟩

/-- Fetch collaborator of the two-page document: the first page carries
an image-preload assignment, the second the restricted-content marker. -/
def fetchC1 : String → String := fun u =>
  if u = get_cover_url "BOOKID" then coverC1
  else if u = "http://books.google.com/books?id=BOOKID&pg=PA1" then
    "var a; preloadImg.src = \x27http://e/img?w=100&sig=S\x27;"
  else if u = "http://books.google.com/books?id=BOOKID&pg=PA2" then
    "zz /googlebooks/restricted_logo.gif zz"
  else if u = "http://e/img?w=1280&sig=S" then "IMG1"
  else ""

/-- Cover HTML of a one-page document, for the C5 success witness. -/
def coverC5 : String :=
  "_OC_Run(\x7b\"page\":[\x7b\"pid\":\"PT1\",\"order\":0\x7d],\"prefix\":\"Q\"\x7d,\x7b\"title\":\"T5\",\"attribution\":\"A5\",\"max_resolution_image_width\":800,\"max_resolution_image_height\":1200\x7d);"

/-- Metadata of a one-page document used to drive the page loop in the
C7 and C8 witnesses. -/
def infoC7 : BookInfo := ⟨"http://h/b?id=X", ["PZ"], "T", "A", (777, 999)⟩

/-- Fetch collaborator whose single page resolves to an image URL. -/
def fetchC7 : String → String := fun u =>
  if u = get_page_url "http://h/b?id=X" "PZ" then
    "preloadImg.src = \x27http://e/i?w=3&s=1\x27"
  else if u = "http://e/i?w=777&s=1" then "IMGDATA"
  else ""

/-- Fetch collaborator whose single page carries the restricted marker. -/
def fetchC8 : String → String := fun u =>
  if u = get_page_url "http://h/b?id=X" "PZ" then
    "a /googlebooks/restricted_logo.gif b"
  else ""

/-- Page HTML carrying both the restricted marker and an image-preload
assignment. -/
def htmlC10 : String :=
  "x /googlebooks/restricted_logo.gif y preloadImg.src = \x27http://q\x27 z"

/-! ## Helper lemmas -/

theorem findIdValue_eq_none_iff (l : List Char) :
    findIdValue l = none ↔ hasIdAssign l = false := by
  induction l with
  | nil => simp [findIdValue, hasIdAssign]
  | cons c cs ih =>
    unfold findIdValue hasIdAssign
    by_cases hp : ('i' :: 'd' :: '=' :: []).isPrefixOf (c :: cs) = true
    · rw [if_pos hp, hp]
      by_cases he : (((c :: cs).drop 3).takeWhile (fun d => d ≠ '&')).isEmpty = true
      · rw [if_pos he, he]
        simpa using ih
      · rw [if_neg he]
        simp only [Bool.not_eq_true] at he
        rw [he]
        simp
    · rw [if_neg hp]
      simp only [Bool.not_eq_true] at hp
      rw [hp]
      simpa using ih

theorem findIdValue_decomp (l : List Char) :
    ∀ cap : List Char, findIdValue l = some cap →
    ∃ l₁ l₂, l = l₁ ++ ('i' :: 'd' :: '=' :: []) ++ cap ++ l₂ ∧ cap ≠ [] ∧
      (∀ c ∈ cap, c ≠ '&') ∧ (l₂ = [] ∨ l₂.head? = some '&') ∧
      (∀ m₁ m₂ : List Char, l = m₁ ++ ('i' :: 'd' :: '=' :: []) ++ m₂ →
        m₁.length < l₁.length → m₂ = [] ∨ m₂.head? = some '&') := by
  induction l with
  | nil => intro cap h; simp [findIdValue] at h
  | cons c cs ih =>
    intro cap h
    unfold findIdValue at h
    by_cases hp : ('i' :: 'd' :: '=' :: []).isPrefixOf (c :: cs) = true
    · rw [if_pos hp] at h
      by_cases he : (((c :: cs).drop 3).takeWhile (fun d => d ≠ '&')).isEmpty = true
      · rw [if_pos he] at h
        obtain ⟨l₁, l₂, hEq, hne, hall, hpost, hfirst⟩ := ih cap h
        refine ⟨c :: l₁, l₂, by simp [hEq], hne, hall, hpost, ?_⟩
        intro m₁ m₂ hm hlen
        cases m₁ with
        | nil =>
          rw [List.nil_append] at hm
          have hdrop : (c :: cs).drop 3 = m₂ := by rw [hm]; rfl
          rw [hdrop] at he
          cases m₂ with
          | nil => left; rfl
          | cons d ds =>
            right
            by_cases hd : d = '&'
            · rw [hd]; rfl
            · rw [List.takeWhile_cons, if_pos (by simpa using hd)] at he
              simp at he
        | cons x m₁2 =>
          obtain ⟨-, hm2⟩ := List.cons.inj hm
          refine hfirst m₁2 m₂ hm2 ?_
          simp only [List.length_cons] at hlen
          omega
      · rw [if_neg he] at h
        obtain ⟨t, ht⟩ := List.isPrefixOf_iff_prefix.mp hp
        have hdrop : (c :: cs).drop 3 = t := by rw [← ht]; rfl
        have hcap : cap = t.takeWhile (fun d => d ≠ '&') := by
          rw [← Option.some.inj h, hdrop]
        refine ⟨[], t.dropWhile (fun d => d ≠ '&'), ?_, ?_, ?_, ?_, ?_⟩
        · rw [hcap, List.nil_append, List.append_assoc,
            List.takeWhile_append_dropWhile, ht]
        · intro hc
          apply he
          rw [Option.some.inj h, hc]
          rfl
        · intro x hx
          rw [hcap] at hx
          simpa using List.mem_takeWhile_imp hx
        · rcases hh : (t.dropWhile (fun d => d ≠ '&')).head? with _ | x
          · left; exact List.head?_eq_none_iff.mp hh
          · right
            have hnot := List.head?_dropWhile_not (fun d => d ≠ '&') t
            rw [hh] at hnot
            simp only [decide_eq_false_iff_not, ne_eq, not_not] at hnot
            rw [hnot]
        · intro m₁ m₂ _ hlen
          exact absurd hlen (by simp)
    · rw [if_neg hp] at h
      obtain ⟨l₁, l₂, hEq, hne, hall, hpost, hfirst⟩ := ih cap h
      refine ⟨c :: l₁, l₂, by simp [hEq], hne, hall, hpost, ?_⟩
      intro m₁ m₂ hm hlen
      cases m₁ with
      | nil =>
        rw [List.nil_append] at hm
        exact absurd (List.isPrefixOf_iff_prefix.mpr ⟨m₂, hm.symm⟩) hp
      | cons x m₁2 =>
        obtain ⟨-, hm2⟩ := List.cons.inj hm
        refine hfirst m₁2 m₂ hm2 ?_
        simp only [List.length_cons] at hlen
        omega

theorem pageStep_fst {f : String → String} {w : Int} {p : String} {ip pr : Nat × String}
    (h : pageStep f w p ip = some pr) : pr.1 = ip.1 := by
  unfold pageStep at h
  split at h
  · split at h
    · exact absurd h (by simp)
    · rw [← Option.some.inj h]
  · exact absurd h (by simp)

theorem processPages_yields (ids : List String) :
    ∀ (f : String → String) (info : BookInfo) (n : Nat)
      (ys : List (Nat × String)) (log : List String),
    processPages f info n ids = .ok (ys, log) →
    ys = (List.enumFrom n ids).filterMap (pageStep f info.max_resolution.1 info.pref) := by
  induction ids with
  | nil =>
    intro f info n ys log h
    simp only [processPages, Except.ok.injEq, Prod.mk.injEq] at h
    simp [← h.1]
  | cons pid rest ih =>
    intro f info n ys log h
    simp only [processPages] at h
    have henum : List.enumFrom n (pid :: rest) = (n, pid) :: List.enumFrom (n + 1) rest := rfl
    rw [henum]
    have hstep0 : pageStep f info.max_resolution.1 info.pref (n, pid) =
        match get_image_url_from_page (f (get_page_url info.pref pid)) with
        | .ok (some u) => if u = "" then none
            else some (n, f (reSubWidth info.max_resolution.1 u))
        | _ => none := rfl
    split at h
    · exact absurd h (by simp)
    · rename_i heq
      have hstep : pageStep f info.max_resolution.1 info.pref (n, pid) = none := by
        rw [hstep0, heq]
      rw [List.filterMap_cons_none hstep]
      split at h
      · exact absurd h (by simp)
      · rename_i ys2 log2 hr
        simp only [Except.ok.injEq, Prod.mk.injEq] at h
        rw [← h.1]
        exact ih f info (n + 1) ys2 log2 hr
    · rename_i u heq
      by_cases hu : u = ""
      · rw [if_pos hu] at h
        have hstep : pageStep f info.max_resolution.1 info.pref (n, pid) = none := by
          rw [hstep0, heq]
          simp [hu]
        rw [List.filterMap_cons_none hstep]
        split at h
        · exact absurd h (by simp)
        · rename_i ys2 log2 hr
          simp only [Except.ok.injEq, Prod.mk.injEq] at h
          rw [← h.1]
          exact ih f info (n + 1) ys2 log2 hr
      · rw [if_neg hu] at h
        have hstep : pageStep f info.max_resolution.1 info.pref (n, pid) =
            some (n, f (reSubWidth info.max_resolution.1 u)) := by
          rw [hstep0, heq]
          simp [hu]
        rw [List.filterMap_cons_some hstep]
        split at h
        · exact absurd h (by simp)
        · rename_i ys2 log2 hr
          simp only [Except.ok.injEq, Prod.mk.injEq] at h
          rw [← h.1]
          exact congrArg _ (ih f info (n + 1) ys2 log2 hr)

theorem pageStep_mem (l : List String) :
    ∀ (n : Nat) (pr : Nat × String) (f : String → String) (w : Int) (p : String),
    pr ∈ (List.enumFrom n l).filterMap (pageStep f w p) →
    n ≤ pr.1 ∧ ∃ pid, l.get? (pr.1 - n) = some pid ∧ pageStep f w p (pr.1, pid) = some pr := by
  induction l with
  | nil => intro n pr f w p h; simp [List.enumFrom] at h
  | cons a l ih =>
    intro n pr f w p h
    have henum : List.enumFrom n (a :: l) = (n, a) :: List.enumFrom (n + 1) l := rfl
    rw [henum] at h
    cases hg : pageStep f w p (n, a) with
    | none =>
      rw [List.filterMap_cons_none hg] at h
      obtain ⟨hle, pid, hget, hstep⟩ := ih (n + 1) pr f w p h
      refine ⟨by omega, pid, ?_, hstep⟩
      have hidx : pr.1 - n = (pr.1 - (n + 1)) + 1 := by omega
      rw [hidx]
      simpa using hget
    | some y =>
      rw [List.filterMap_cons_some hg] at h
      rcases List.mem_cons.mp h with hpr | hpr
      · have hy1 : y.1 = n := pageStep_fst hg
        have hpr1 : pr.1 = n := by rw [hpr, hy1]
        refine ⟨by omega, a, ?_, ?_⟩
        · rw [hpr1]; simp
        · rw [hpr1, hpr]; exact hg
      · obtain ⟨hle, pid, hget, hstep⟩ := ih (n + 1) pr f w p hpr
        refine ⟨by omega, pid, ?_, hstep⟩
        have hidx : pr.1 - n = (pr.1 - (n + 1)) + 1 := by omega
        rw [hidx]
        simpa using hget

theorem pageStep_pairwise (l : List String) :
    ∀ (n : Nat) (f : String → String) (w : Int) (p : String),
    (((List.enumFrom n l).filterMap (pageStep f w p)).map Prod.fst).Pairwise (· < ·) := by
  induction l with
  | nil => intro n f w p; simp [List.enumFrom]
  | cons a l ih =>
    intro n f w p
    have henum : List.enumFrom n (a :: l) = (n, a) :: List.enumFrom (n + 1) l := rfl
    rw [henum]
    cases hg : pageStep f w p (n, a) with
    | none => rw [List.filterMap_cons_none hg]; exact ih (n + 1) f w p
    | some y =>
      rw [List.filterMap_cons_some hg, List.map_cons]
      rw [List.pairwise_cons]
      refine ⟨?_, ih (n + 1) f w p⟩
      intro z hz
      rcases List.mem_map.mp hz with ⟨pr, hpr, hz'⟩
      have := (pageStep_mem l (n + 1) pr f w p hpr).1
      rw [← hz', pageStep_fst hg]
      omega

theorem islice_get? (P : List String) (ps : Nat) (pe : Option Nat) (k : Nat)
    (h : k < (islice P ps pe).length) :
    (islice P ps pe).get? k = P.get? (ps + k) := by
  cases pe with
  | none => exact List.get?_drop P ps k
  | some e =>
    unfold islice at h ⊢
    rw [List.get?_drop]
    have hlen : ((P.take e).drop ps).length = min e P.length - ps := by
      rw [List.length_drop, List.length_take]
    rw [hlen] at h
    exact List.get?_take (by omega)

theorem getInfoTail_ok {pi bi : JsonVal} {pids : List String} {info : BookInfo}
    (h : getInfoTail pi bi pids = .ok info) : info.page_ids = pids := by
  unfold getInfoTail at h
  split at h
  · exact absurd h (by simp)
  · split at h
    · exact absurd h (by simp)
    · split at h
      · exact absurd h (by simp)
      · split at h
        · exact absurd h (by simp)
        · split at h
          · exact absurd h (by simp)
          · rw [← Except.ok.inj h]

theorem getInfoPages_ne_nil {pi bi : JsonVal} {entries : List JsonVal} {info : BookInfo}
    (h : getInfoPages pi bi entries = .ok info) : info.page_ids ≠ [] := by
  unfold getInfoPages at h
  split at h
  · exact absurd h (by simp)
  · split at h
    · exact absurd h (by simp)
    · split at h
      · exact absurd h (by simp)
      · rename_i hempty
        rw [getInfoTail_ok h]
        intro hc
        exact hempty (by rw [hc]; rfl)

theorem getInfoCont_ne_nil {pi bi : JsonVal} {info : BookInfo}
    (h : getInfoCont pi bi = .ok info) : info.page_ids ≠ [] := by
  unfold getInfoCont at h
  split at h
  · exact absurd h (by simp)
  · exact absurd h (by simp)
  · split at h
    · exact absurd h (by simp)
    · exact getInfoPages_ne_nil h
    · exact absurd h (by simp)

theorem getInfo_ne_nil {parse : String → String → Except String JsonVal}
    {html : String} {info : BookInfo}
    (h : getInfo parse html = .ok info) : info.page_ids ≠ [] := by
  unfold getInfo at h
  split at h
  · exact absurd h (by simp)
  · split at h
    · exact absurd h (by simp)
    · split at h
      · exact absurd h (by simp)
      · exact getInfoCont_ne_nil h
      · exact absurd h (by simp)
      · exact absurd h (by simp)

/-! ## Claim theorems -/

/-- Claim C1 (amended): for every fetch and parse collaborator, document
URL and half-open 0-based range (`page_end` absent meaning the end of
`page_ids`), whenever the pipeline driver `download_book` succeeds, its
(finite) yielded sequence is exactly the per-page summary `pageStep`
filtered over the enumerated page identifiers of the range; its page
indices are strictly increasing; its length is at most — not always
equal to — the number of page identifiers in the range; and every
element is tagged with the absolute index of the very page identifier
it was produced from.  Restricted pages (and pages resolving to an
empty image URL) contribute no element at all, rather than an element
with absent image bytes. -/
theorem c1_driver_sequence (fetch : String → String)
    (parse : String → String → Except String JsonVal) (url : String)
    (ps : Nat) (pe : Option Nat) (info : BookInfo) (ys : List (Nat × String))
    (log : List String)
    (h : download_book fetch parse url ps pe = .ok (info, ys, log)) :
    ys = (List.enumFrom ps (islice info.page_ids ps pe)).filterMap
        (pageStep fetch info.max_resolution.1 info.pref)
    ∧ (ys.map Prod.fst).Pairwise (· < ·)
    ∧ ys.length ≤ (islice info.page_ids ps pe).length
    ∧ ∀ pr ∈ ys, ∃ pid, info.page_ids.get? pr.1 = some pid ∧
        pageStep fetch info.max_resolution.1 info.pref (pr.1, pid) = some pr := by
  simp only [download_book] at h
  split at h
  · exact absurd h (by simp)
  · split at h
    · exact absurd h (by simp)
    · split at h
      · exact absurd h (by simp)
      · rename_i info2 ys2 log2 hp
        simp only [Except.ok.injEq, Prod.mk.injEq] at h
        obtain ⟨hinfo, hys, hlog⟩ := h
        rw [hinfo, hys] at hp
        have h1 := processPages_yields _ fetch info ps ys log2 hp
        refine ⟨h1, ?_, ?_, ?_⟩
        · rw [h1]; exact pageStep_pairwise _ ps fetch _ _
        · rw [h1]
          have hle := List.length_filterMap_le
            (pageStep fetch info.max_resolution.1 info.pref)
            (List.enumFrom ps (islice info.page_ids ps pe))
          rwa [List.enumFrom_length] at hle
        · intro pr hpr
          rw [h1] at hpr
          obtain ⟨hle, pid, hget, hstep⟩ := pageStep_mem _ ps pr fetch _ _ hpr
          refine ⟨pid, ?_, hstep⟩
          have hlt : pr.1 - ps < (islice info.page_ids ps pe).length := by
            rcases List.get?_eq_some.mp hget with ⟨hl, _⟩
            exact hl
          rw [islice_get? _ _ _ _ hlt] at hget
          have harith : ps + (pr.1 - ps) = pr.1 := by omega
          rwa [harith] at hget

set_option maxRecDepth 16000 in
/-- Claim C1, counterexample to the claim as stated: a two-page
document whose second page is restricted; the full range holds 2 page
identifiers, yet `download_book` yields only 1 element — the driver
skips restricted pages entirely instead of emitting an element with
absent image bytes. -/
theorem c1_counterexample :
    download_book fetchC1 jsonParseSimple "BOOKID" 0 none =
      .ok (infoC1, [(0, "IMG1")],
        [get_cover_url "BOOKID",
         "http://books.google.com/books?id=BOOKID&pg=PA1",
         "http://e/img?w=1280&sig=S",
         "http://books.google.com/books?id=BOOKID&pg=PA2"])
    ∧ (islice infoC1.page_ids 0 none).length = 2
    ∧ [((0 : Nat), "IMG1")].length = 1 :=
  ⟨by rfl, by rfl, by rfl⟩

set_option maxRecDepth 16000 in
/-- Witness for C1: the amended theorem applied to the concrete
two-page document. -/
theorem c1_driver_sequence_witness :
    ([((0 : Nat), "IMG1")].map Prod.fst).Pairwise (· < ·) :=
  (c1_driver_sequence fetchC1 jsonParseSimple "BOOKID" 0 none infoC1 [(0, "IMG1")]
    [get_cover_url "BOOKID", "http://books.google.com/books?id=BOOKID&pg=PA1",
     "http://e/img?w=1280&sig=S", "http://books.google.com/books?id=BOOKID&pg=PA2"]
    (by rfl)).2.1

/-- Claim C2, counterexample to the claim as stated: the URL
`x/?id=&a=1` contains a path separator and an `id` query parameter
(with empty value), yet the resolver raises `ParseError` — so the
resolver does not raise exactly when the URL contains no `id` query
parameter. -/
theorem c2_counterexample :
    get_id_from_string "x/?id=&a=1" =
      .error (.parsingError "Error extracting id query string from URL: x/?id=&a=1")
    ∧ specHasIdQueryParam "x/?id=&a=1" = true :=
  ⟨by rfl, by rfl⟩

/-- Claim C2 (amended): the identifier resolver returns its input
unchanged for every string containing no `/`; for a string containing
`/` it raises `ParseError` exactly when no occurrence of `id=` is
followed by at least one non-`&` character, and any value it returns
is the nonempty maximal run of non-`&` characters immediately
following the first occurrence of `id=` that has such a run — every
strictly earlier `id=` occurrence is followed by `&` or the end of the
string (the matching occurrence may sit inside another parameter
name).  Concretely, `id=AB&id=CD` resolves to `AB`, an empty-valued
first occurrence in `id=&id=XY&z` is skipped in favor of `XY`, and the
specification example URL resolves to `ABC123`. -/
theorem c2_resolver_amended :
    (∀ s : String, s.data.contains '/' = false → get_id_from_string s = .ok s)
    ∧ (∀ s : String,
        get_id_from_string s =
          .error (.parsingError ("Error extracting id query string from URL: " ++ s))
        ↔ s.data.contains '/' = true ∧ hasIdAssign s.data = false)
    ∧ (∀ (s v : String), get_id_from_string s = .ok v → s.data.contains '/' = true →
        ∃ l₁ l₂, s.data = l₁ ++ ('i' :: 'd' :: '=' :: []) ++ v.data ++ l₂ ∧
          v.data ≠ [] ∧ (∀ c ∈ v.data, c ≠ '&') ∧ (l₂ = [] ∨ l₂.head? = some '&') ∧
          (∀ m₁ m₂ : List Char, s.data = m₁ ++ ('i' :: 'd' :: '=' :: []) ++ m₂ →
            m₁.length < l₁.length → m₂ = [] ∨ m₂.head? = some '&'))
    ∧ get_id_from_string "a/?id=AB&id=CD" = .ok "AB"
    ∧ get_id_from_string "a/?id=&id=XY&z" = .ok "XY"
    ∧ get_id_from_string "http://books.google.com/books?id=ABC123&hl=en" = .ok "ABC123" := by
  refine ⟨?_, ?_, ?_, by rfl, by rfl, by rfl⟩
  · intro s h
    unfold get_id_from_string
    rw [h]
    rfl
  · intro s
    unfold get_id_from_string
    cases hc : s.data.contains '/' with
    | false => simp
    | true =>
      simp only [hc, Bool.not_true, Bool.false_eq_true, if_false]
      cases hf : findIdValue s.data with
      | none =>
        simp only [true_and]
        constructor
        · intro _; exact (findIdValue_eq_none_iff s.data).mp hf
        · intro _; trivial
      | some cap =>
        simp only [true_and]
        constructor
        · intro hcon; exact absurd hcon (by simp)
        · intro hnone
          have := (findIdValue_eq_none_iff s.data).mpr hnone
          rw [hf] at this
          exact absurd this (by simp)
  · intro s v hok hc
    unfold get_id_from_string at hok
    simp only [hc, Bool.not_true, Bool.false_eq_true, if_false] at hok
    cases hf : findIdValue s.data with
    | none => rw [hf] at hok; exact absurd hok (by simp)
    | some cap =>
      rw [hf] at hok
      have hv : v = String.mk cap := (Except.ok.inj hok).symm
      have hdata : v.data = cap := by rw [hv]
      rw [hdata]
      exact findIdValue_decomp s.data cap hf

/-- Witness for C2: the amended theorem applied to a separator-free
string and to a URL without a usable `id=` occurrence. -/
theorem c2_resolver_amended_witness :
    get_id_from_string "ab" = .ok "ab"
    ∧ (get_id_from_string "a/b" =
        .error (.parsingError "Error extracting id query string from URL: a/b")
      ↔ ("a/b" : String).data.contains '/' = true ∧ hasIdAssign ("a/b" : String).data = false) :=
  ⟨c2_resolver_amended.1 "ab" (by rfl), c2_resolver_amended.2.1 "a/b"⟩

set_option maxRecDepth 16000 in
/-- Claim C3 (confirmed): the metadata extractor orders `page_ids` by
the numeric `order` field of each page entry, ascending — the sort used
on the keyed entries always produces keys in ascending order and is a
permutation of its input (so no arrival order survives) — and on the
cover fixture with order fields `[2,0,1]` and pid fields
`[p2,p0,p1]` the extracted `page_ids` equal `[p0,p1,p2]`. -/
theorem c3_sort_by_order :
    (∀ l : List (Int × JsonVal), ((pyKeySorted l).map Prod.fst).Pairwise (· ≤ ·))
    ∧ (∀ l : List (Int × JsonVal), (pyKeySorted l).Perm l)
    ∧ Except.map BookInfo.page_ids (getInfo jsonParseSimple fixtureC3) =
        .ok ["p0", "p1", "p2"] := by
  refine ⟨?_, ?_, by rfl⟩
  · intro l
    haveI hts : IsTotal (Int × JsonVal) (fun a b => a.1 ≤ b.1) :=
      ⟨fun a b => le_total a.1 b.1⟩
    haveI htr : IsTrans (Int × JsonVal) (fun a b => a.1 ≤ b.1) :=
      ⟨fun _ _ _ hab hbc => le_trans hab hbc⟩
    have hs := List.sorted_insertionSort (fun (a b : Int × JsonVal) => a.1 ≤ b.1) l
    unfold pyKeySorted
    rw [List.pairwise_map]
    exact hs
  · intro l
    exact List.perm_insertionSort _ l

/-- Claim C4, counterexample to the claim as stated: on a cover whose
embedded call argument text is not valid structured data, the failure
escaping the parse step is the parser's own `ValueError`, not the
module's `ParseError` — `json.loads` is not wrapped. -/
theorem c4_counterexample :
    getInfo jsonParseSimple "_OC_Run(\x7d);" = .error (.valueError "json syntax") := by
  rfl

/-- Claim C4 (amended): in the structured-data step of the metadata
extractor, a parse failure propagates as the parser's error
(`ValueError`), while fewer than two top-level elements raise the
module's `ParseError`; so the step raises `ParseError` only for the
arity check, not for parse failures. -/
theorem c4_structured_data_errors :
    (∀ (parse : String → String → Except String JsonVal) (html enc : String)
        (args : List Char) (e : String),
      encodingOf html = .ok enc →
      findOcRun html.data = some args →
      parse enc ("[" ++ String.mk args ++ "]") = .error e →
      getInfo parse html = .error (.valueError e))
    ∧ (∀ (parse : String → String → Except String JsonVal) (html enc : String)
        (args : List Char) (es : List JsonVal),
      encodingOf html = .ok enc →
      findOcRun html.data = some args →
      parse enc ("[" ++ String.mk args ++ "]") = .ok (.arr es) →
      es.length < 2 →
      getInfo parse html =
        .error (.parsingError "Expecting at least 2 arguments in function: OC_Run()")) := by
  constructor
  · intro parse html enc args e h1 h2 h3
    simp only [getInfo, h1, h2, h3]
  · intro parse html enc args es h1 h2 h3 hlen
    simp only [getInfo, h1, h2, h3]
    rcases es with _ | ⟨a, _ | ⟨b, rest⟩⟩
    · rfl
    · rfl
    · simp at hlen
      omega

/-- Witness for C4: the amended theorem applied to a cover whose
argument text is malformed and to one with an empty argument list. -/
theorem c4_structured_data_errors_witness :
    getInfo jsonParseSimple "_OC_Run(,);" = .error (.valueError "json syntax")
    ∧ getInfo jsonParseSimple "_OC_Run();" =
        .error (.parsingError "Expecting at least 2 arguments in function: OC_Run()") :=
  ⟨c4_structured_data_errors.1 jsonParseSimple "_OC_Run(,);" "iso8859-15"
      (',' :: []) "json syntax" (by rfl) (by rfl) (by rfl),
   c4_structured_data_errors.2 jsonParseSimple "_OC_Run();" "iso8859-15"
      [] [] (by rfl) (by rfl) (by rfl) (by decide)⟩

/-- Claim C5 (confirmed): whenever the metadata extractor succeeds, the
resulting `page_ids` is non-empty; when the first structured-data
element lacks a `page` collection it raises the `ParseError`
`Cannot find page info`; when the projected page-identifier sequence is
empty it raises the `ParseError` `No page_ids found`. -/
theorem c5_nonempty_page_ids :
    (∀ (parse : String → String → Except String JsonVal) (html : String)
        (info : BookInfo),
      getInfo parse html = .ok info → info.page_ids ≠ [])
    ∧ (∀ (parse : String → String → Except String JsonVal) (html enc : String)
        (args : List Char) (fs : List (String × JsonVal)) (b : JsonVal)
        (rest : List JsonVal),
      encodingOf html = .ok enc →
      findOcRun html.data = some args →
      parse enc ("[" ++ String.mk args ++ "]") = .ok (.arr (.obj fs :: b :: rest)) →
      fs.lookup "page" = none →
      getInfo parse html = .error (.parsingError "Cannot find page info"))
    ∧ (∀ (parse : String → String → Except String JsonVal) (html enc : String)
        (args : List Char) (fs : List (String × JsonVal)) (b : JsonVal)
        (rest : List JsonVal),
      encodingOf html = .ok enc →
      findOcRun html.data = some args →
      parse enc ("[" ++ String.mk args ++ "]") = .ok (.arr (.obj fs :: b :: rest)) →
      fs.lookup "page" = some (.arr []) →
      getInfo parse html = .error (.parsingError "No page_ids found")) := by
  refine ⟨fun parse html info h => getInfo_ne_nil h, ?_, ?_⟩
  · intro parse html enc args fs b rest h1 h2 h3 h4
    simp only [getInfo, h1, h2, h3, getInfoCont, jsonMember, h4]
    rfl
  · intro parse html enc args fs b rest h1 h2 h3 h4
    simp only [getInfo, h1, h2, h3, getInfoCont, jsonMember, jsonIndex, h4]
    rfl

set_option maxRecDepth 16000 in
/-- Witness for C5: the three parts applied to a one-page cover, a
cover without a `page` collection, and a cover with an empty page
list. -/
theorem c5_nonempty_page_ids_witness :
    (⟨"Q", ["PT1"], "T5", "A5", (800, 1200)⟩ : BookInfo).page_ids ≠ []
    ∧ getInfo jsonParseSimple "_OC_Run(\x7b\"a\":1\x7d,2);" =
        .error (.parsingError "Cannot find page info")
    ∧ getInfo jsonParseSimple "_OC_Run(\x7b\"page\":[]\x7d,2);" =
        .error (.parsingError "No page_ids found") :=
  ⟨c5_nonempty_page_ids.1 jsonParseSimple coverC5 _ (by rfl),
   c5_nonempty_page_ids.2.1 jsonParseSimple "_OC_Run(\x7b\"a\":1\x7d,2);" "iso8859-15"
      ("\x7b\"a\":1\x7d,2").data [("a", .num 1)] (.num 2) []
      (by rfl) (by rfl) (by rfl) (by rfl),
   c5_nonempty_page_ids.2.2 jsonParseSimple "_OC_Run(\x7b\"page\":[]\x7d,2);" "iso8859-15"
      ("\x7b\"page\":[]\x7d,2").data [("page", .arr [])] (.num 2) []
      (by rfl) (by rfl) (by rfl) (by rfl)⟩

/-- Claim C6 (confirmed): when the `ie` input-tag scan locates a
segment and that segment carries a quoted `value` attribute, the
encoding used by `get_info` to parse the data blob is that value
lower-cased; when no segment matches, the encoding is the fixed default
`iso8859-15`; on the fixture declaring `value="UTF-8"` the encoding is
`utf-8`. -/
theorem c6_encoding_determination :
    (∀ (html : String) (tag cap : List Char),
      findIeTag html = some tag → valueCapture tag = some cap →
      encodingOf html = .ok (lowerStr (String.mk cap)))
    ∧ (∀ html : String, findIeTag html = none → encodingOf html = .ok "iso8859-15")
    ∧ encodingOf "<input name=\"ie\" value=\"UTF-8\">x" = .ok "utf-8" := by
  refine ⟨?_, ?_, by rfl⟩
  · intro html tag cap h1 h2
    simp only [encodingOf, h1, h2]
  · intro html h1
    simp only [encodingOf, h1]

/-- Witness for C6: the two cases of the theorem applied to a cover
declaring `value="ISO-8859-7"` and to a cover without an `ie` tag. -/
theorem c6_encoding_determination_witness :
    encodingOf "<input name=\"ie\" value=\"ISO-8859-7\">" =
      .ok (lowerStr (String.mk ("ISO-8859-7").data))
    ∧ encodingOf "no tag here" = .ok "iso8859-15" :=
  ⟨c6_encoding_determination.1 "<input name=\"ie\" value=\"ISO-8859-7\">"
      ("input name=\"ie\" value=\"ISO-8859-7\">").data ("ISO-8859-7").data
      (by rfl) (by rfl),
   c6_encoding_determination.2.1 "no tag here" (by rfl)⟩

/-- Claim C7 (confirmed): when a page resolves to a nonempty image URL
`u`, the driver fetches exactly the rewritten URL — `u` with every
width query parameter value replaced by the metadata's maximum width —
and yields its response as the image bytes; on the specification
example, `http://x/img?w=100&id=1` rewritten for width 2000 is
`http://x/img?w=2000&id=1`. -/
theorem c7_width_rewrite :
    (∀ (fetch : String → String) (info : BookInfo) (page : Nat) (pid : String)
        (rest : List String) (u : String),
      get_image_url_from_page (fetch (get_page_url info.pref pid)) = .ok (some u) →
      u ≠ "" →
      processPages fetch info page (pid :: rest) =
        Except.map
          (fun r => ((page, fetch (reSubWidth info.max_resolution.1 u)) :: r.1,
            get_page_url info.pref pid :: reSubWidth info.max_resolution.1 u :: r.2))
          (processPages fetch info (page + 1) rest))
    ∧ reSubWidth 2000 "http://x/img?w=100&id=1" = "http://x/img?w=2000&id=1" := by
  refine ⟨?_, by rfl⟩
  intro fetch info page pid rest u hg hu
  simp only [processPages, hg]
  rw [if_neg hu]
  cases hr : processPages fetch info (page + 1) rest with
  | error e => simp [Except.map]
  | ok pr =>
    cases pr
    simp [Except.map]

/-- Witness for C7: the theorem applied to a one-page document whose
page preloads `http://e/i?w=3&s=1` with maximum width 777. -/
theorem c7_width_rewrite_witness :
    processPages fetchC7 infoC7 0 ["PZ"] =
      Except.map
        (fun r => ((0, fetchC7 (reSubWidth infoC7.max_resolution.1 "http://e/i?w=3&s=1")) :: r.1,
          get_page_url infoC7.pref "PZ" ::
            reSubWidth infoC7.max_resolution.1 "http://e/i?w=3&s=1" :: r.2))
        (processPages fetchC7 infoC7 1 []) :=
  c7_width_rewrite.1 fetchC7 infoC7 0 "PZ" [] "http://e/i?w=3&s=1" (by rfl) (by decide)

/-- Claim C8 (confirmed): a page body containing the restricted-content
marker makes `get_image_url_from_page` return absent rather than raise,
and the driver then performs no further fetch for that page — its fetch
log gains only the page fetch itself, no image-URL fetch — and yields
no element for it. -/
theorem c8_restricted_absent :
    (∀ html : String, containsSub restrictedMarker.data html.data = true →
      get_image_url_from_page html = .ok none)
    ∧ (∀ (fetch : String → String) (info : BookInfo) (page : Nat) (pid : String)
        (rest : List String),
      containsSub restrictedMarker.data (fetch (get_page_url info.pref pid)).data = true →
      processPages fetch info page (pid :: rest) =
        Except.map (fun r => (r.1, get_page_url info.pref pid :: r.2))
          (processPages fetch info (page + 1) rest)) := by
  constructor
  · intro html h
    unfold get_image_url_from_page
    rw [if_pos h]
  · intro fetch info page pid rest h
    have hg : get_image_url_from_page (fetch (get_page_url info.pref pid)) = .ok none := by
      unfold get_image_url_from_page
      rw [if_pos h]
    simp only [processPages, hg]
    cases hr : processPages fetch info (page + 1) rest with
    | error e => simp [Except.map]
    | ok pr =>
      cases pr
      simp [Except.map]

/-- Witness for C8: the theorem applied to a one-page document whose
page body carries the restricted marker. -/
theorem c8_restricted_absent_witness :
    containsSub restrictedMarker.data (fetchC8 (get_page_url infoC7.pref "PZ")).data = true
    ∧ processPages fetchC8 infoC7 4 ["PZ"] =
        Except.map (fun r => (r.1, get_page_url infoC7.pref "PZ" :: r.2))
          (processPages fetchC8 infoC7 5 []) :=
  ⟨by rfl, c8_restricted_absent.2 fetchC8 infoC7 4 "PZ" [] (by rfl)⟩

/-- Claim C9 (confirmed): a page body that neither contains the
restricted marker nor matches the image-preload assignment pattern
makes `get_image_url_from_page` raise `ParseError`. -/
theorem c9_missing_image_error :
    ∀ html : String, containsSub restrictedMarker.data html.data = false →
      findPreload html.data = none →
      get_image_url_from_page html = .error (.parsingError "No image found in HTML page") := by
  intro html h1 h2
  unfold get_image_url_from_page
  rw [if_neg (by simp [h1]), h2]

/-- Witness for C9: the theorem applied to a page body with neither
marker nor preload assignment. -/
theorem c9_missing_image_error_witness :
    get_image_url_from_page "hello" = .error (.parsingError "No image found in HTML page") :=
  c9_missing_image_error "hello" (by rfl) (by rfl)

/-- Claim C10 (confirmed): the restricted-content check takes priority
over image extraction — a page body containing the marker resolves to
absent even when it also matches the image-preload pattern. -/
theorem c10_restricted_priority :
    ∀ (html : String) (cap : List Char),
      containsSub restrictedMarker.data html.data = true →
      findPreload html.data = some cap →
      get_image_url_from_page html = .ok none := by
  intro html cap h1 _h2
  unfold get_image_url_from_page
  rw [if_pos h1]

/-- Witness for C10: the theorem applied to a body carrying both the
marker and a matching preload assignment. -/
theorem c10_restricted_priority_witness :
    get_image_url_from_page htmlC10 = .ok none :=
  c10_restricted_priority htmlC10 ("http://q").data (by rfl) (by rfl)
